import Mathlib

/-!
Shallow embedding of `src/petstore_sdk/models/base.py`: the runtime support
layer of a generated API client SDK.  `BaseModel` provides scalar validation
(`_pattern_matching`, `_enum_matching`) and object/list coercion
(`_define_object`, `_define_list`); `OneOfBaseModel.return_one_of` resolves
union-typed ("oneOf") fields by trial construction with a non-null
field-count heuristic.

Python values (decoded JSON plus model instances and enum members) are
embedded as the inductive `Value`.  Exceptions raised by generated model
constructors are embedded as `Option` results (`none` = the constructor
raised); functions that can raise `ValueError` to their caller return
`Except String`.
-/

/-- A Python runtime value as this module sees it: JSON-shaped data
(null, str, float, int, bool, dict, list), a typed model instance
(`inst cls fields`, whose `_map()` projection is `fields`), or a symbolic
enum member (`enumMember name val`, whose `.value` is `val`).  The `float`
payload is the IEEE-754 bit pattern, carried around but never inspected. -/
inductive Value where
  | null : Value
  | str (s : String) : Value
  | float (bits : Nat) : Value
  | int (n : Int) : Value
  | bool (b : Bool) : Value
  | enumMember (ename : String) (val : String) : Value
  | dict (d : List (String × Value)) : Value
  | list (items : List Value) : Value
  | inst (cls : String) (fields : List (String × Value)) : Value

/-- A Python dict with string keys, as an association list in insertion
order (Python dicts preserve insertion order and have unique keys). -/
abbrev Dict := List (String × Value)

/-- Python `value is None`. -/
def Value.isNull : Value → Bool
  | .null => true
  | _ => false

/-- Python `isinstance(value, (str, float, int, bool))`. -/
def Value.isPrimitive : Value → Bool
  | .str _ => true
  | .float _ => true
  | .int _ => true
  | .bool _ => true
  | _ => false

/-- A generated model class: its `__name__`, its `_unmap` classmethod
(building the fields of a new instance from a raw dict, `none` when the
constructor raises), and its one-positional-argument constructor
`cls(item)` (`none` when that call raises). -/
structure ModelClass where
  name : String
  unmapFields : Dict → Option Dict
  posCtor : Value → Option Value

/-- Python `isinstance(v, m)` for a model class `m`: true exactly when `v`
is a model instance of that class. -/
def isInstanceOf (v : Value) (m : ModelClass) : Bool :=
  match v with
  | .inst n _ => n == m.name
  | _ => false

/-!
## Regular expressions

`BaseModel._pattern_matching` calls Python `re.match(pattern, value)`, which
anchors the match at the start of the string only: it succeeds exactly when
some prefix of the string is in the pattern's language.  The pattern is
embedded as a regular-expression syntax tree (what `re.compile` parses the
pattern string into); matching is by Brzozowski derivatives.
-/

/-- A compiled regular expression: the empty language, the empty string, a
single character, the wildcard `.`, concatenation, alternation `|`, and
Kleene star `*`. -/
inductive Regex where
  | fail : Regex
  | eps : Regex
  | char (c : Char) : Regex
  | any : Regex
  | seq (r1 r2 : Regex) : Regex
  | alt (r1 r2 : Regex) : Regex
  | star (r : Regex) : Regex

/-- Whether the regular expression accepts the empty string. -/
def Regex.nullable : Regex → Bool
  | .fail => false
  | .eps => true
  | .char _ => false
  | .any => false
  | .seq r1 r2 => r1.nullable && r2.nullable
  | .alt r1 r2 => r1.nullable || r2.nullable
  | .star _ => true

/-- Brzozowski derivative of the regular expression by one character. -/
def Regex.deriv : Regex → Char → Regex
  | .fail, _ => .fail
  | .eps, _ => .fail
  | .char c, a => if a == c then .eps else .fail
  | .any, _ => .eps
  | .seq r1 r2, a =>
      if r1.nullable then .alt (.seq (r1.deriv a) r2) (r2.deriv a)
      else .seq (r1.deriv a) r2
  | .alt r1 r2, a => .alt (r1.deriv a) (r2.deriv a)
  | .star r, a => .seq (r.deriv a) (.star r)

/-- Whether the regular expression accepts the whole character list. -/
def Regex.matchesFull (r : Regex) (s : List Char) : Bool :=
  (s.foldl Regex.deriv r).nullable

/-- Whether some prefix of the character list is accepted (the earliest-start
semantics of Python `re.match`): scan left to right, succeeding as soon as
the residual expression is nullable. -/
def Regex.matchStart : Regex → List Char → Bool
  | r, [] => r.nullable
  | r, c :: cs => r.nullable || (r.deriv c).matchStart cs

/-- Python `re.match(pattern, value)` as a Boolean: does `value` match
`pattern` anchored at the start (a prefix match, not a full-string match)? -/
def reMatch (pattern : Regex) (value : String) : Bool :=
  pattern.matchStart value.data

/-- Rendering of the pattern for error messages (Python interpolates the
original pattern string; this prints the syntax tree back). -/
def Regex.toStr : Regex → String
  | .fail => "(?!)"
  | .eps => ""
  | .char c => String.singleton c
  | .any => "."
  | .seq r1 r2 => r1.toStr ++ r2.toStr
  | .alt r1 r2 => "(" ++ r1.toStr ++ "|" ++ r2.toStr ++ ")"
  | .star r => "(" ++ r.toStr ++ ")*"

/-!
## `BaseModel` scalar validators
-/

/-- The `ValueError` message of `_pattern_matching` (line 34 of base.py). -/
def patternError (variable_name : String) (pattern : Regex) : String :=
  "Invalid value for " ++ variable_name ++ ": must match " ++ pattern.toStr

/-- `BaseModel._pattern_matching(value, pattern, variable_name)`
(base.py lines 14-34): null passes through; a string is returned unchanged
when `re.match(pattern, value)` succeeds and otherwise raises `ValueError`;
`re.match` on a non-string raises `TypeError`. -/
def pattern_matching (value : Value) (pattern : Regex) (variable_name : String) :
    Except String Value :=
  match value with
  | .null => .ok .null
  | .str s =>
      if reMatch pattern s then .ok (.str s)
      else .error (patternError variable_name pattern)
  | _ => .error "TypeError: expected string or bytes-like object"

/-- The `ValueError` message of `_enum_matching` (base.py lines 59-61). -/
def enumError (variable_name : String) (enum_values : List String) : String :=
  "Invalid value for " ++ variable_name ++ ": must match one of ["
    ++ String.intercalate ", " enum_values ++ "]"

/-- `value.value if isinstance(value, Enum) else value` (base.py line 55). -/
def enumUnderlying : Value → Value
  | .enumMember _ s => .str s
  | v => v

/-- `str_value in enum_values` for an untyped `str_value`: Python `in` uses
equality, and a non-string never equals a string. -/
def strValueMem (str_value : Value) (enum_values : List String) : Bool :=
  match str_value with
  | .str s => enum_values.contains s
  | _ => false

/-- `BaseModel._enum_matching(value, enum_values, variable_name)`
(base.py lines 36-61): null passes through; otherwise the value is
normalized to its underlying string (`.value` for an enum member) and, when
that string is among `enum_values`, the original value is returned
unchanged; otherwise `ValueError`. -/
def enum_matching (value : Value) (enum_values : List String)
    (variable_name : String) : Except String Value :=
  match value with
  | .null => .ok .null
  | v =>
      if strValueMem (enumUnderlying v) enum_values then .ok v
      else .error (enumError variable_name enum_values)

/-!
## `OneOfBaseModel`: the one-of resolver

`class_list` (a class attribute, base.py line 167) maps type names to
candidate classes in the union's declaration order; it is embedded as an
ordered list of candidates.  A candidate is either a plain model class or a
typing hint `List[Inner]` (the case `get_origin(class_constructor)` is not
`None`, base.py lines 190-198).
-/

/-- One entry of `OneOfBaseModel.class_list`: a plain generated model class,
or a parameterized `List[Inner]` type hint. -/
inductive Candidate where
  | plain (m : ModelClass) : Candidate
  | listOf (inner : ModelClass) : Candidate

/-- `arg.__name__` for a class-list entry (base.py lines 121-122). -/
def Candidate.cname : Candidate → String
  | .plain m => m.name
  | .listOf _ => "List"

/-- The `_map()` projection of a constructed model instance: its fields. -/
def Value.mapFields : Value → Dict
  | .inst _ fields => fields
  | _ => []

/-- The number of dict entries whose value is not `None`:
`len({k: v for k, v in d.items() if v is not None}.values())`. -/
def countNonNull (d : Dict) : Nat :=
  (d.filter (fun kv => !kv.2.isNull)).length

/-- `OneOfBaseModel._check_params(raw_input, instance)` (base.py lines
236-251): the count of non-null values in the raw input dict equals the
count of non-null fields in the instance's own `_map()` projection. -/
def check_params (raw_input : Dict) (instOf : Value) : Bool :=
  countNonNull raw_input == countNonNull instOf.mapFields

/-- `inner_type._unmap(item)` for one element of a `List[Inner]` candidate:
raises (`none`) on a non-dict element or when the constructor raises. -/
def unmap_element (inner : ModelClass) (item : Value) : Option Value :=
  match item with
  | .dict d => (inner.unmapFields d).map (Value.inst inner.name)
  | _ => none

/-- `[inner_type._unmap(item) for item in input_data]` (base.py line 234):
an element for which `_unmap` raises aborts the whole comprehension (the
exception is swallowed by the resolver's loop). -/
def unmap_list (inner : ModelClass) (items : List Value) : Option Value :=
  (items.mapM (unmap_element inner)).map Value.list

/-- `OneOfBaseModel._get_list_instance(input_data, class_constructor, origin)`
(base.py lines 216-234) for `class_constructor = List[inner]`, called with a
list input: if every element is already an instance of `inner`, the input is
returned unchanged; otherwise each element is rebuilt via `inner._unmap`;
a non-list input falls off the end (Python returns `None`). -/
def get_list_instance (input_data : Value) (inner : ModelClass) : Option Value :=
  match input_data with
  | .list items =>
      if items.all (fun item => isInstanceOf item inner) then some (.list items)
      else unmap_list inner items
  | _ => none

/-- One iteration of the resolver's candidate loop (base.py lines 187-210),
with the surrounding `try/except Exception: pass` folded in: `some v` when
the iteration returns `v`, `none` when it falls through to the next
candidate (including every raised exception, which is swallowed).
For a `List[Inner]` hint the input must be a list (`isinstance` against a
bare typing hint raises, which is swallowed); for a plain class, an input
that already is an instance is returned immediately, and a dict input is
trial-constructed via `_unmap` and accepted only if `_check_params` holds. -/
def try_candidate (c : Candidate) (input_data : Value) : Option Value :=
  match c with
  | .listOf inner =>
      match input_data with
      | .list items => get_list_instance (.list items) inner
      | _ => none
  | .plain m =>
      if isInstanceOf input_data m then some input_data
      else
        match input_data with
        | .dict d =>
            match m.unmapFields d with
            | some fields =>
                if check_params d (.inst m.name fields) then
                  some (.inst m.name fields)
                else none
            | none => none
        | _ => none

/-- The `ValueError` message raised when no candidate matches (base.py lines
212-214): it enumerates the candidate type names, `list(cls.class_list.keys())`. -/
def oneOfError (class_list : List Candidate) : String :=
  "Input data must match one of the models: ["
    ++ String.intercalate ", " (class_list.map Candidate.cname) ++ "]"

/-- The resolver's candidate loop: try each remaining candidate in order;
when all are exhausted, raise the `ValueError` enumerating the full
candidate set. -/
def one_of_loop (class_list : List Candidate) (input_data : Value) :
    List Candidate → Except String Value
  | [] => .error (oneOfError class_list)
  | c :: rest =>
      match try_candidate c input_data with
      | some v => .ok v
      | none => one_of_loop class_list input_data rest

/-- `OneOfBaseModel.return_one_of(input_data)` (base.py lines 169-214) with
`cls.class_list` passed explicitly: null passes through; a primitive
(str/float/int/bool) is returned as-is; otherwise each candidate is tried in
the class list's declared order and exhaustion raises `ValueError`. -/
def return_one_of (class_list : List Candidate) (input_data : Value) :
    Except String Value :=
  if input_data.isNull then .ok .null
  else if input_data.isPrimitive then .ok input_data
  else one_of_loop class_list input_data class_list

/-!
## `BaseModel` object and list coercion
-/

/-- `BaseModel._define_object(input_data, input_class)` (base.py lines
63-78): null passes through; input that already is an instance of the class
is returned unchanged; otherwise `input_class._unmap(input_data)` constructs
a new instance (raising on a non-dict input or when the constructor
raises). -/
def define_object (input_data : Value) (input_class : ModelClass) :
    Except String Value :=
  if input_data.isNull then .ok .null
  else if isInstanceOf input_data input_class then .ok input_data
  else
    match input_data with
    | .dict d =>
        match input_class.unmapFields d with
        | some fields => .ok (.inst input_class.name fields)
        | none => .error ("Exception in " ++ input_class.name ++ "._unmap")
    | _ => .error ("Exception in " ++ input_class.name ++ "._unmap")

/-- The element type of `_define_list`: a parameterized union type hint
(`hasattr(list_class, "__args__")`, whose arguments are the union's member
classes in declaration order), a generated `Enum` subclass (with its
`list()` of values), or a plain class. -/
inductive ListClass where
  | unionHint (args : List Candidate) : ListClass
  | enumCls (ename : String) (values : List String) : ListClass
  | modelCls (m : ModelClass) : ListClass

/-- `BaseModel.__create_class_map(union_type)` (base.py lines 111-123):
a dict keyed by `__name__` built over the union's arguments — a later
argument with the same name overwrites the earlier entry in place,
otherwise insertion order is declaration order. -/
def create_class_map (args : List Candidate) : List Candidate :=
  args.foldl
    (fun acc c =>
      if acc.any (fun x => x.cname == c.cname) then
        acc.map (fun x => if x.cname == c.cname then c else x)
      else acc ++ [c])
    []

/-- The body of `_define_list`'s loop for one element (base.py lines 95-108),
threading `OneOfBaseModel.class_list` (the process-wide scratch field) as
explicit state: a union hint assigns the scratch field and resolves the
element through `return_one_of`; an enum class validates through
`_enum_matching`; for a plain class, an element that already is an instance
is kept, a dict element is constructed via `_unmap`, and anything else goes
through the one-positional-argument constructor `list_class(item)`. -/
def define_list_item (class_list : List Candidate) (list_class : ListClass)
    (item : Value) : Except String Value × List Candidate :=
  match list_class with
  | .unionHint args =>
      let cm := create_class_map args
      (return_one_of cm item, cm)
  | .enumCls ename values => (enum_matching item values ename, class_list)
  | .modelCls m =>
      (if isInstanceOf item m then .ok item
       else
         match item with
         | .dict d =>
             match m.unmapFields d with
             | some fields => .ok (.inst m.name fields)
             | none => .error ("Exception in " ++ m.name ++ "._unmap")
         | _ =>
             match m.posCtor item with
             | some v => .ok v
             | none => .error ("Exception in " ++ m.name ++ "(item)"),
       class_list)

/-- `result.append(v)` composed with the rest of `_define_list`'s loop:
cons the element's value onto the rest of the results, or propagate the
exception the rest of the loop raised. -/
def step_append (v : Value) :
    Except String (List Value) × List Candidate →
      Except String (List Value) × List Candidate
  | (.ok vs, st2) => (.ok (v :: vs), st2)
  | (.error e, st2) => (.error e, st2)

/-- The loop of `_define_list` over the input elements, accumulating the
result list and threading the scratch field; an exception raised for an
element propagates out of the loop. -/
def define_list_go (class_list : List Candidate) (list_class : ListClass) :
    List Value → Except String (List Value) × List Candidate
  | [] => (.ok [], class_list)
  | item :: rest =>
      match define_list_item class_list list_class item with
      | (.error e, st1) => (.error e, st1)
      | (.ok v, st1) => step_append v (define_list_go st1 list_class rest)

/-- Wrap the loop's outcome as `_define_list`'s non-null return value. -/
def wrap_some :
    Except String (List Value) × List Candidate →
      Except String (Option (List Value)) × List Candidate
  | (.ok vs, st) => (.ok (some vs), st)
  | (.error e, st) => (.error e, st)

/-- `BaseModel._define_list(input_data, list_class)` (base.py lines 80-109)
with the scratch field `OneOfBaseModel.class_list` threaded as explicit
state: null passes through, otherwise the elements are coerced in order. -/
def define_list_st (class_list : List Candidate)
    (input_data : Option (List Value)) (list_class : ListClass) :
    Except String (Option (List Value)) × List Candidate :=
  match input_data with
  | none => (.ok none, class_list)
  | some items => wrap_some (define_list_go class_list list_class items)

/-- `_define_list` as the caller sees it: the returned value, starting from
the scratch field's initial contents (the empty class map, base.py
line 167). -/
def define_list (input_data : Option (List Value)) (list_class : ListClass) :
    Except String (Option (List Value)) :=
  (define_list_st [] input_data list_class).fst

/-!
## Concrete generated model classes

The generated model classes themselves are external collaborators of
base.py (the spec's section 1 puts them out of scope and the repository
does not contain them), so the concrete classes used in counterexamples
and witnesses are modelled from the spec's data model.
-/

/-- `d.get(k)`: the value stored under a key of a raw dict, null when the
key is absent. -/
def dictGet (d : Dict) (k : String) : Value :=
  match d.find? (fun kv => kv.1 == k) with
  | some kv => kv.2
  | none => .null

/-- Modelled from the spec: the `_unmap` constructor of a generated model
class with the given declared field names, all optional — each declared
field takes the raw dict's value for its key, null when the key is absent
("a mapping from field name to value ... null representing absence").
Construction never raises, and the instance's `_map()` projection is
exactly these fields. -/
def schemaUnmap (field_names : List String) (d : Dict) : Option Dict :=
  some (field_names.map (fun k => (k, dictGet d k)))

/-- Modelled from the spec: candidate schema A with fields x and y
(spec section 8, the disambiguation scenario). -/
def classA : ModelClass := ⟨"A", schemaUnmap ["x", "y"], fun _ => none⟩

/-- Modelled from the spec: candidate schema B with fields x, y and z, all
optional — it "constructs successfully by leaving z null". -/
def classB : ModelClass := ⟨"B", schemaUnmap ["x", "y", "z"], fun _ => none⟩

/-- Modelled from the spec: target element class `Foo` of the
`coerce_list` property (spec section 8), with a single field x. -/
def classFoo : ModelClass := ⟨"Foo", schemaUnmap ["x"], fun _ => none⟩

/-- A candidate class whose `_unmap` constructor always raises: its trial
construction fails with an exception for every input. -/
def classRaises : ModelClass := ⟨"Raises", fun _ => none, fun _ => none⟩

/-- The raw input `{x: 1, y: 2}` of the disambiguation scenario. -/
def rawXY : Dict := [("x", .int 1), ("y", .int 2)]

example : return_one_of [.plain classA, .plain classB] (.dict rawXY)
    = .ok (.inst "A" [("x", .int 1), ("y", .int 2)]) := rfl
example : return_one_of [.plain classB, .plain classA] (.dict rawXY)
    = .ok (.inst "B" [("x", .int 1), ("y", .int 2), ("z", .null)]) := rfl
example : return_one_of [.plain classRaises, .plain classA]
      (.dict [("x", .int 1), ("y", .int 2), ("w", .int 3)])
    = .error (oneOfError [.plain classRaises, .plain classA]) := rfl
example : define_list (some [.dict [("x", .int 1)], .dict [("x", .int 2)]])
      (.modelCls classFoo)
    = .ok (some [.inst "Foo" [("x", .int 1)], .inst "Foo" [("x", .int 2)]]) := rfl
example : (define_list_st [] (some [.dict []]) (.unionHint [.plain classA])).snd
    = [.plain classA] := rfl

example : Value.isPrimitive (.str "a") = true := by decide
example : isInstanceOf (.dict []) ⟨"A", fun d => some d, fun _ => none⟩ = false := rfl
example : reMatch (.seq (.char 'a') (.char 'b')) "abc" = true := rfl
example : reMatch (.seq (.char 'a') (.char 'b')) "acb" = false := rfl

/-!
## Helper lemmas
-/

/-- Whether the resolver's loop accepts a candidate for a dict input: its
mapping constructor `_unmap` succeeds (a `List[Inner]` hint has no mapping
constructor, so it never accepts a dict) and `_check_params` holds — the
count of non-null values in the raw input equals the count of non-null
fields in the constructed instance's own `_map()` projection. -/
def acceptsDict (c : Candidate) (d : Dict) : Bool :=
  match c with
  | .plain m =>
      match m.unmapFields d with
      | some fields => check_params d (.inst m.name fields)
      | none => false
  | .listOf _ => false

/-- The instance an accepting candidate constructs from a dict input. -/
def constructedOf (c : Candidate) (d : Dict) : Value :=
  match c with
  | .plain m => .inst m.name ((m.unmapFields d).getD [])
  | .listOf _ => .null

theorem try_candidate_dict (c : Candidate) (d : Dict) :
    try_candidate c (.dict d)
      = if acceptsDict c d then some (constructedOf c d) else none := by
  cases c with
  | listOf inner => rfl
  | plain m =>
      simp only [try_candidate, isInstanceOf, acceptsDict, constructedOf]
      cases h : m.unmapFields d with
      | none => simp [h]
      | some fields => by_cases hc : check_params d (.inst m.name fields) <;> simp [h, hc]

theorem one_of_loop_dict (full : List Candidate) (d : Dict) (rem : List Candidate) :
    one_of_loop full (.dict d) rem
      = match rem.find? (fun c => acceptsDict c d) with
        | some c => .ok (constructedOf c d)
        | none => .error (oneOfError full) := by
  induction rem with
  | nil => rfl
  | cons c rest ih =>
      by_cases hc : acceptsDict c d
      · simp [one_of_loop, try_candidate_dict, hc, List.find?_cons_of_pos]
      · rw [one_of_loop, try_candidate_dict, if_neg hc,
          List.find?_cons_of_neg _ (by simpa using hc)]
        exact ih

/-!
## The claims
-/

/-- Claim C1: for every dictionary input and every candidate in the
resolver's candidate set, the candidate is accepted exactly when
construction via its mapping constructor succeeds and the count of
non-null values in the raw input equals the count of non-null fields of
the constructed instance's own mapping projection (`acceptsDict`), and
among accepted candidates the first in the set's declared iteration order
is returned. -/
theorem one_of_dict_first_accepted (class_list : List Candidate) (d : Dict) :
    return_one_of class_list (.dict d)
      = match class_list.find? (fun c => acceptsDict c d) with
        | some c => .ok (constructedOf c d)
        | none => .error (oneOfError class_list) := by
  simp only [return_one_of, Value.isNull, Value.isPrimitive, Bool.false_eq_true,
    if_false]
  exact one_of_loop_dict class_list d class_list

/-- Claim C2 is false on the code: with candidate order [B, A] and raw
input `{x:1, y:2}`, the resolver returns the B instance (its null field z
is excluded from the non-null field count, so B also satisfies the
field-count heuristic and, being first, wins), not the A instance. -/
theorem one_of_disambiguation_order_cex :
    return_one_of [.plain classB, .plain classA] (.dict rawXY)
        = .ok (.inst "B" [("x", .int 1), ("y", .int 2), ("z", .null)]) ∧
    Value.inst "B" [("x", .int 1), ("y", .int 2), ("z", .null)]
        ≠ Value.inst "A" [("x", .int 1), ("y", .int 2)] :=
  ⟨rfl, by simp⟩

/-- Claim C2 amended: with candidates A (fields x, y) and B (fields x, y, z)
and raw input `{x:1, y:2}`, both candidates satisfy the field-count
heuristic (B constructs with z null, and null fields are excluded from the
count), so the declared order decides: with A first the resolver selects A,
with B first it selects B. -/
theorem one_of_disambiguation_order_decides :
    return_one_of [.plain classA, .plain classB] (.dict rawXY)
        = .ok (.inst "A" [("x", .int 1), ("y", .int 2)]) ∧
    return_one_of [.plain classB, .plain classA] (.dict rawXY)
        = .ok (.inst "B" [("x", .int 1), ("y", .int 2), ("z", .null)]) ∧
    acceptsDict (.plain classA) rawXY = true ∧
    acceptsDict (.plain classB) rawXY = true :=
  ⟨rfl, rfl, rfl, rfl⟩

/-- Claim C3: for null input, `_pattern_matching`, `_enum_matching`,
`_define_object`, `_define_list` and `return_one_of` all return null and
never raise. -/
theorem null_input_passthrough (pattern : Regex) (variable_name : String)
    (enum_values : List String) (input_class : ModelClass)
    (list_class : ListClass) (class_list : List Candidate) :
    pattern_matching .null pattern variable_name = .ok .null ∧
    enum_matching .null enum_values variable_name = .ok .null ∧
    define_object .null input_class = .ok .null ∧
    define_list none list_class = .ok none ∧
    return_one_of class_list .null = .ok .null :=
  ⟨rfl, rfl, rfl, rfl, rfl⟩

theorem one_of_loop_error_iff (full : List Candidate) (input_data : Value)
    (rem : List Candidate) (e : String) :
    one_of_loop full input_data rem = .error e ↔
      (e = oneOfError full ∧ ∀ c ∈ rem, try_candidate c input_data = none) := by
  induction rem with
  | nil => simp [one_of_loop, eq_comm]
  | cons c rest ih =>
      cases h : try_candidate c input_data with
      | some v => simp [one_of_loop, h]
      | none => simp [one_of_loop, h, ih]

/-- Claim C4: the resolver raises the `ValueError` enumerating all candidate
type names exactly when every candidate in the set fails to match
(`try_candidate` returns `none`, which swallows every exception raised
during an individual candidate's trial construction or field counting);
no other error ever surfaces to the caller. -/
theorem one_of_exhaustion_error (class_list : List Candidate)
    (input_data : Value) (h0 : input_data.isNull = false)
    (h1 : input_data.isPrimitive = false) (e : String) :
    return_one_of class_list input_data = .error e ↔
      (e = oneOfError class_list ∧
       ∀ c ∈ class_list, try_candidate c input_data = none) := by
  rw [return_one_of, if_neg (by simp [h0]), if_neg (by simp [h1])]
  exact one_of_loop_error_iff class_list input_data class_list e

/-- Witness for claim C4: the candidate whose constructor raises and the
candidate rejected by the field-count heuristic are both swallowed, and the
resolver fails with the `ValueError` enumerating both candidate names. -/
theorem one_of_exhaustion_error_witness :
    return_one_of [.plain classRaises, .plain classA]
        (.dict [("x", .int 1), ("y", .int 2), ("w", .int 3)])
      = .error (oneOfError [.plain classRaises, .plain classA]) := by
  refine (one_of_exhaustion_error [.plain classRaises, .plain classA]
      (.dict [("x", .int 1), ("y", .int 2), ("w", .int 3)]) rfl rfl
      (oneOfError [.plain classRaises, .plain classA])).mpr ⟨rfl, ?_⟩
  intro c hc
  rcases List.mem_cons.mp hc with h | h
  · rw [h]; rfl
  · rw [List.mem_singleton.mp h]; rfl

theorem matchesFull_nil (r : Regex) : r.matchesFull [] = r.nullable := rfl

theorem matchesFull_cons (r : Regex) (c : Char) (s : List Char) :
    r.matchesFull (c :: s) = (r.deriv c).matchesFull s := rfl

/-- `Regex.matchStart` succeeds exactly when some prefix of the character
list is in the pattern's language. -/
theorem matchStart_iff_exists (s : List Char) : ∀ r : Regex,
    r.matchStart s = true ↔ ∃ t u, s = t ++ u ∧ r.matchesFull t = true := by
  induction s with
  | nil =>
      intro r
      constructor
      · intro h; exact ⟨[], [], rfl, h⟩
      · rintro ⟨t, u, heq, hm⟩
        have ht : t = [] := (List.append_eq_nil.mp heq.symm).1
        rw [ht] at hm; exact hm
  | cons c cs ih =>
      intro r
      rw [Regex.matchStart]
      constructor
      · intro h
        rcases Bool.or_eq_true_iff.mp h with hn | hrest
        · exact ⟨[], c :: cs, rfl, hn⟩
        · rcases (ih (r.deriv c)).mp hrest with ⟨t, u, heq, hm⟩
          exact ⟨c :: t, u, by simp [heq], hm⟩
      · rintro ⟨t, u, heq, hm⟩
        cases t with
        | nil =>
            exact Bool.or_eq_true_iff.mpr (Or.inl hm)
        | cons t0 ts =>
            have heq2 : c :: cs = t0 :: (ts ++ u) := heq
            injection heq2 with h1 h2
            subst h1
            exact Bool.or_eq_true_iff.mpr (Or.inr ((ih (r.deriv c)).mpr ⟨ts, u, h2, hm⟩))

/-- Claim C5: for a non-null string value, `_pattern_matching` returns the
value unchanged exactly when the value matches the pattern anchored at the
start — some prefix of it (not necessarily the whole string) is in the
pattern's language — and otherwise fails with the `ValueError` naming the
field and the pattern. -/
theorem pattern_matching_start_anchored (v : String) (pattern : Regex)
    (variable_name : String) :
    (pattern_matching (.str v) pattern variable_name = .ok (.str v) ↔
       ∃ t u, v.data = t ++ u ∧ pattern.matchesFull t = true) ∧
    (pattern_matching (.str v) pattern variable_name
        = .error (patternError variable_name pattern) ↔
       ¬ ∃ t u, v.data = t ++ u ∧ pattern.matchesFull t = true) := by
  have h := matchStart_iff_exists v.data pattern
  have hpm : pattern_matching (.str v) pattern variable_name
      = if reMatch pattern v then .ok (.str v)
        else .error (patternError variable_name pattern) := rfl
  rw [hpm]
  by_cases hr : reMatch pattern v = true
  · have hex : ∃ t u, v.data = t ++ u ∧ pattern.matchesFull t = true := h.mp hr
    rw [if_pos hr]
    exact ⟨⟨fun _ => hex, fun _ => rfl⟩,
           ⟨fun hcontra => absurd hcontra (by simp), fun hno => absurd hex hno⟩⟩
  · have hno : ¬ ∃ t u, v.data = t ++ u ∧ pattern.matchesFull t = true :=
      fun hex => hr (h.mpr hex)
    rw [if_neg hr]
    exact ⟨⟨fun hcontra => absurd hcontra (by simp), fun hex => absurd hex hno⟩,
           ⟨fun _ => hno, fun _ => rfl⟩⟩

/-- Claim C6: a non-null value — a symbolic enum member or a plain string —
is normalized to its underlying string for the membership test; on success
the original value is returned, preserving enum-vs-string identity, and on
failure `_enum_matching` raises the `ValueError` listing the allowed set. -/
theorem enum_matching_preserves_identity (ename s : String)
    (enum_values : List String) (variable_name : String) :
    (enum_values.contains s = true →
       enum_matching (.enumMember ename s) enum_values variable_name
           = .ok (.enumMember ename s) ∧
       enum_matching (.str s) enum_values variable_name = .ok (.str s)) ∧
    (enum_values.contains s = false →
       enum_matching (.enumMember ename s) enum_values variable_name
           = .error (enumError variable_name enum_values) ∧
       enum_matching (.str s) enum_values variable_name
           = .error (enumError variable_name enum_values)) := by
  refine ⟨fun h => ?_, fun h => ?_⟩
  · have h2 : s ∈ enum_values := by simpa using h
    exact ⟨by simp [enum_matching, enumUnderlying, strValueMem, h2],
           by simp [enum_matching, enumUnderlying, strValueMem, h2]⟩
  · have h2 : s ∉ enum_values := by simpa using h
    exact ⟨by simp [enum_matching, enumUnderlying, strValueMem, h2],
           by simp [enum_matching, enumUnderlying, strValueMem, h2]⟩

/-- Claim C7: a primitive input (str, float, int or bool) is returned
as-is by the resolver, whatever the candidate set — no candidate is
consulted. -/
theorem one_of_primitive_passthrough (class_list : List Candidate)
    (s : String) (bits : Nat) (n : Int) (b : Bool) :
    return_one_of class_list (.str s) = .ok (.str s) ∧
    return_one_of class_list (.float bits) = .ok (.float bits) ∧
    return_one_of class_list (.int n) = .ok (.int n) ∧
    return_one_of class_list (.bool b) = .ok (.bool b) :=
  ⟨rfl, rfl, rfl, rfl⟩

theorem define_list_go_model (st : List Candidate) (m : ModelClass)
    (ds : List Dict) (h : ∀ d ∈ ds, (m.unmapFields d).isSome = true) :
    define_list_go st (.modelCls m) (ds.map Value.dict)
      = (.ok (ds.map (fun d => .inst m.name ((m.unmapFields d).getD []))), st) := by
  induction ds with
  | nil => rfl
  | cons d rest ih =>
      obtain ⟨fields, hf⟩ :=
        Option.isSome_iff_exists.mp (h d (List.mem_cons_self d rest))
      rw [List.map_cons, define_list_go]
      have hitem : define_list_item st (.modelCls m) (.dict d)
          = (.ok (.inst m.name fields), st) := by
        simp [define_list_item, isInstanceOf, hf]
      have hrest := ih (fun d2 hd2 => h d2 (List.mem_cons_of_mem d hd2))
      simp [hitem, hrest, hf, step_append]

/-- Claim C8: `_define_list` on a non-null list of raw mappings with a plain
(non-union, non-enum) target element class returns a list of instances of
that class, equal in length to the input and elementwise in the input's
order (the i-th output is the `_unmap` of the i-th input mapping), provided
each element's construction succeeds. -/
theorem define_list_length_order (ds : List Dict) (m : ModelClass)
    (h : ∀ d ∈ ds, (m.unmapFields d).isSome = true) :
    define_list (some (ds.map Value.dict)) (.modelCls m)
        = .ok (some (ds.map (fun d => .inst m.name ((m.unmapFields d).getD []))))
      ∧ (ds.map (fun d => Value.inst m.name ((m.unmapFields d).getD []))).length
        = (ds.map Value.dict).length := by
  refine ⟨?_, by simp⟩
  rw [define_list, define_list_st, define_list_go_model [] m ds h]
  rfl

/-- Witness for claim C8: two raw mappings, coerced to two `Foo` instances
in the input's order. -/
theorem define_list_length_order_witness :
    define_list (some [.dict [("x", .int 1)], .dict [("x", .int 2)]])
        (.modelCls classFoo)
      = .ok (some [.inst "Foo" [("x", .int 1)], .inst "Foo" [("x", .int 2)]]) := by
  have h := (define_list_length_order [[("x", .int 1)], [("x", .int 2)]] classFoo
    (by intro d hd; rcases List.mem_cons.mp hd with h1 | h1
        · rw [h1]; rfl
        · rw [List.mem_singleton.mp h1]; rfl)).1
  exact h

/-- Whether the input already is an instance of the candidate (for a
`List[Inner]` typing hint, `isinstance` raises and the exception is
swallowed, so such a candidate never passes this check). -/
def isCandidateInstance (input_data : Value) (c : Candidate) : Bool :=
  match c with
  | .plain m => isInstanceOf input_data m
  | .listOf _ => false

theorem try_candidate_inst (c : Candidate) (n : String) (f : Dict) :
    try_candidate c (.inst n f)
      = if isCandidateInstance (.inst n f) c then some (.inst n f) else none := by
  cases c with
  | listOf inner => rfl
  | plain m =>
      by_cases hc : isInstanceOf (.inst n f) m = true
      · simp [try_candidate, isCandidateInstance, hc]
      · simp [try_candidate, isCandidateInstance, hc]

theorem one_of_loop_inst (full : List Candidate) (n : String) (f : Dict)
    (rem : List Candidate)
    (h : ∃ c ∈ rem, isCandidateInstance (.inst n f) c = true) :
    one_of_loop full (.inst n f) rem = .ok (.inst n f) := by
  induction rem with
  | nil => rcases h with ⟨c, hc, _⟩; exact absurd hc (List.not_mem_nil c)
  | cons c rest ih =>
      rw [one_of_loop, try_candidate_inst]
      by_cases hc : isCandidateInstance (.inst n f) c = true
      · rw [if_pos hc]
      · rw [if_neg hc]
        apply ih
        rcases h with ⟨c2, hmem, hinst⟩
        rcases List.mem_cons.mp hmem with h1 | h1
        · exact absurd (h1 ▸ hinst) hc
        · exact ⟨c2, h1, hinst⟩

/-- Claim C9: both `_define_object` and the resolver are identity-preserving
on already-typed input — input that already is an instance of the target
class (respectively of some candidate class) is returned unchanged, with no
new instance constructed. -/
theorem already_typed_identity (input_data : Value) (input_class : ModelClass)
    (class_list : List Candidate)
    (h1 : isInstanceOf input_data input_class = true)
    (h2 : ∃ c ∈ class_list, isCandidateInstance input_data c = true) :
    define_object input_data input_class = .ok input_data ∧
    return_one_of class_list input_data = .ok input_data := by
  cases input_data with
  | inst n f =>
      constructor
      · simp [define_object, Value.isNull, h1]
      · rw [return_one_of, if_neg (by simp [Value.isNull]),
          if_neg (by simp [Value.isPrimitive])]
        exact one_of_loop_inst class_list n f class_list h2
  | null => exact absurd h1 (by simp [isInstanceOf])
  | str s => exact absurd h1 (by simp [isInstanceOf])
  | float bits => exact absurd h1 (by simp [isInstanceOf])
  | int n => exact absurd h1 (by simp [isInstanceOf])
  | bool b => exact absurd h1 (by simp [isInstanceOf])
  | enumMember e s => exact absurd h1 (by simp [isInstanceOf])
  | dict d => exact absurd h1 (by simp [isInstanceOf])
  | list items => exact absurd h1 (by simp [isInstanceOf])

/-- Witness for claim C9: an already-typed A instance passes through
`_define_object` and the resolver (with B tried first) unchanged. -/
theorem already_typed_identity_witness :
    define_object (.inst "A" [("x", .int 1)]) classA
        = .ok (.inst "A" [("x", .int 1)]) ∧
    return_one_of [.plain classB, .plain classA] (.inst "A" [("x", .int 1)])
        = .ok (.inst "A" [("x", .int 1)]) :=
  already_typed_identity (.inst "A" [("x", .int 1)]) classA
    [.plain classB, .plain classA] rfl
    ⟨.plain classA,
     List.mem_cons_of_mem _ (List.mem_cons_self _ _), rfl⟩

theorem step_append_fst (v : Value)
    (q : Except String (List Value) × List Candidate) :
    (step_append v q).fst
      = match q.fst with
        | .ok vs => .ok (v :: vs)
        | .error e => .error e := by
  rcases q with ⟨r, s⟩
  cases r <;> rfl

theorem step_append_snd (v : Value)
    (q : Except String (List Value) × List Candidate) :
    (step_append v q).snd = q.snd := by
  rcases q with ⟨r, s⟩
  cases r <;> rfl

theorem wrap_some_fst (q : Except String (List Value) × List Candidate) :
    (wrap_some q).fst
      = match q.fst with
        | .ok vs => .ok (some vs)
        | .error e => .error e := by
  rcases q with ⟨r, s⟩
  cases r <;> rfl

theorem wrap_some_snd (q : Except String (List Value) × List Candidate) :
    (wrap_some q).snd = q.snd := by
  rcases q with ⟨r, s⟩
  cases r <;> rfl

theorem define_list_item_fst (st1 st2 : List Candidate) (list_class : ListClass)
    (item : Value) :
    (define_list_item st1 list_class item).fst
      = (define_list_item st2 list_class item).fst := by
  cases list_class <;> rfl

theorem define_list_go_fst (list_class : ListClass) (items : List Value) :
    ∀ st1 st2, (define_list_go st1 list_class items).fst
      = (define_list_go st2 list_class items).fst := by
  induction items with
  | nil => intro st1 st2; rfl
  | cons item rest ih =>
      intro st1 st2
      rw [define_list_go, define_list_go]
      have hfst := define_list_item_fst st1 st2 list_class item
      cases h1 : define_list_item st1 list_class item with
      | mk r1 s1 =>
        cases h2 : define_list_item st2 list_class item with
        | mk r2 s2 =>
          have hr : r1 = r2 := by rw [h1, h2] at hfst; exact hfst
          subst hr
          cases r1 with
          | error e => rfl
          | ok v =>
              show (step_append v (define_list_go s1 list_class rest)).fst
                  = (step_append v (define_list_go s2 list_class rest)).fst
              rw [step_append_fst, step_append_fst, ih s1 s2]

theorem define_list_go_union_snd (args : List Candidate) (items : List Value) :
    ∀ st, (define_list_go st (.unionHint args) items).snd
      = if items.isEmpty then st else create_class_map args := by
  induction items with
  | nil => intro st; rfl
  | cons item rest ih =>
      intro st
      rw [define_list_go]
      have hitem : define_list_item st (.unionHint args) item
          = (return_one_of (create_class_map args) item, create_class_map args) := rfl
      rw [hitem]
      cases hr : return_one_of (create_class_map args) item with
      | error e => simp
      | ok v =>
          show (step_append v (define_list_go (create_class_map args)
                (.unionHint args) rest)).snd
              = if (item :: rest).isEmpty then st else create_class_map args
          rw [step_append_snd, ih (create_class_map args)]
          simp

/-- Claim C10 is false on the code: `_define_list` never resets
`OneOfBaseModel.class_list`, so after a call that coerced a union-typed
element the scratch field still holds that union's candidate map — here it
changed from the initial empty map to `[classA]` and stayed so after the
call returned. -/
theorem scratch_field_retained_cex :
    (define_list_st [] (some [.dict []]) (.unionHint [.plain classA])).snd
        = [.plain classA] ∧
    ([Candidate.plain classA] : List Candidate) ≠ ([] : List Candidate) :=
  ⟨rfl, by simp⟩

/-- Claim C10 amended: `_define_list` passes the candidate set to the
resolver by assigning the process-wide scratch field
`OneOfBaseModel.class_list`, and the value an invocation returns never
depends on the scratch field's prior contents (every union resolution
assigns it before use); the assignment however persists — after a call
that processed a non-empty list against a union-typed element
specification, the scratch field retains that union's candidate map. -/
theorem scratch_field_semantics (st1 st2 : List Candidate)
    (input_data : Option (List Value)) (list_class : ListClass)
    (args : List Candidate) (items : List Value) (h : items ≠ []) :
    (define_list_st st1 input_data list_class).fst
        = (define_list_st st2 input_data list_class).fst ∧
    (define_list_st st1 (some items) (.unionHint args)).snd
        = create_class_map args := by
  constructor
  · cases input_data with
    | none => rfl
    | some items2 =>
        rw [define_list_st, define_list_st, wrap_some_fst, wrap_some_fst,
          define_list_go_fst list_class items2 st1 st2]
  · rw [define_list_st, wrap_some_snd, define_list_go_union_snd args items st1]
    cases items with
    | nil => exact absurd rfl h
    | cons a b => simp

/-- Witness for the amended claim C10: the returned value is the same from
an empty and from a stale scratch field, and a union-typed call leaves the
union's candidate map in the scratch field. -/
theorem scratch_field_semantics_witness :
    (define_list_st [] (some [.dict [("x", .int 1)]]) (.modelCls classFoo)).fst
        = (define_list_st [.plain classB] (some [.dict [("x", .int 1)]])
            (.modelCls classFoo)).fst ∧
    (define_list_st [] (some [.dict [("x", .int 1)]])
        (.unionHint [.plain classA])).snd = create_class_map [.plain classA] :=
  scratch_field_semantics [] [.plain classB] (some [.dict [("x", .int 1)]])
    (.modelCls classFoo) [.plain classA] [.dict [("x", .int 1)]] (by simp)
